import Mathlib

/-!
Verification of the source-code mutation engine of goprojectstarter.

Go strings and byte slices are modelled as lists of natural numbers
(`GoStr`): each element is one rune (code point).  All string contents
appearing in the claims are ASCII, where Go's byte indexing and rune
indexing coincide; the one non-ASCII rune used (U+2115) is handled
explicitly and commented where it appears.
-/

/-- A Go string / byte slice, as the list of its rune code points. -/
abbrev GoStr := List Nat

/-- Converts a Lean string literal to the rune-code-point model. -/
def gs (s : String) : GoStr := s.data.map Char.toNat

/-- Go unicode.IsUpper, restricted to the runes this development uses:
exact on the ASCII range, and on U+2115 (DOUBLE-STRUCK CAPITAL N,
category Lu, hence upper-case in Go).  Other runes are classified as
not upper, which agrees with Go on every rune appearing below. -/
def goIsUpper (r : Nat) : Bool := if (65 ≤ r ∧ r ≤ 90) ∨ r = 8469 then true else false

/-- Go unicode.IsLower, modelled on the ASCII range (exact there; every
rune probed by a lower-case test below is ASCII). -/
def goIsLower (r : Nat) : Bool := if 97 ≤ r ∧ r ≤ 122 then true else false

/-- Go unicode.ToLower, modelled on the ASCII range.  U+2115 has no
lower-case mapping in Unicode, so Go maps it to itself, as does the
else branch here. -/
def goToLower (r : Nat) : Nat := if 65 ≤ r ∧ r ≤ 90 then r + 32 else r

/-- Go unicode.ToUpper, modelled on the ASCII range. -/
def goToUpperRune (r : Nat) : Nat := if 97 ≤ r ∧ r ≤ 122 then r - 32 else r

/-- Loop body of common.ToSnakeCase (pkg/common utils).  The Go loop is
`for i, r := range s` with the test
`i > 0 && (IsLower(s[i-1]) || (i+1 < len(s) && IsLower(s[i+1])))`;
`prev` is the rune before the current one (`none` exactly when i = 0).
Go probes the neighbouring bytes s[i-1] and s[i+1]; for ASCII
neighbours that byte is the neighbouring rune modelled here, and for
the one multi-byte rune used below (U+2115) the probed continuation
bytes are not lower-case letters either way, so the outcomes agree.
snakePrevNext is that test: false at index 0, else previous rune lower
or next rune present and lower. -/
def snakePrevNext (prev : Option Nat) (rest : GoStr) : Bool :=
  match prev with
  | none => false
  | some p => goIsLower p || (match rest with | next :: _ => goIsLower next | [] => false)

/-- Loop body of common.ToSnakeCase, continued: underscore then the
lower-cased rune when the test fires, else just the lower-cased rune
(rune 95 is the underscore). -/
def snakeLoop : Option Nat → GoStr → GoStr
  | _, [] => []
  | prev, r :: rest =>
    if goIsUpper r then
      (if snakePrevNext prev rest then [95, goToLower r] else [goToLower r]) ++
        snakeLoop (some r) rest
    else
      r :: snakeLoop (some r) rest

/-- common.ToSnakeCase from the naming utilities. -/
def ToSnakeCase (s : GoStr) : GoStr := snakeLoop none s

/-- Go strings.HasSuffix. -/
def goHasSuf (s pat : GoStr) : Bool := pat.isSuffixOf s

/-- Go strings.TrimSuffix. -/
def goTrimSuf (s pat : GoStr) : GoStr :=
  if pat.isSuffixOf s then s.take (s.length - pat.length) else s

/-- common.ToPluralSnakeCase from the naming utilities. -/
def ToPluralSnakeCase (s : GoStr) : GoStr :=
  let snake := ToSnakeCase s
  if goHasSuf snake (gs "y") then goTrimSuf snake (gs "y") ++ gs "ies"
  else if goHasSuf snake (gs "s") then snake ++ gs "es"
  else snake ++ gs "s"

/-- common.ToLowerCamel: lower-cases the first rune. -/
def ToLowerCamel (s : GoStr) : GoStr :=
  match s with
  | [] => []
  | r :: rest => goToLower r :: rest

/-- First index at which `pat` occurs in the second argument
(Go bytes.Index / strings.Index, as an Option instead of -1). -/
def strIndexL (pat : GoStr) : GoStr → Option Nat
  | [] => if pat.isPrefixOf ([] : GoStr) then some 0 else none
  | r :: rest =>
    if pat.isPrefixOf (r :: rest) then some 0
    else (strIndexL pat rest).map (· + 1)

/-- Go strings.Contains / bytes.Contains. -/
def goContains (s pat : GoStr) : Bool := (strIndexL pat s).isSome

/-- Go strings.HasPrefix. -/
def goHasPre (s pat : GoStr) : Bool := pat.isPrefixOf s

/-- Go strings.TrimPrefix. -/
def goTrimPre (s pat : GoStr) : GoStr :=
  if pat.isPrefixOf s then s.drop pat.length else s

/-- Go strings.Replace with n = 1: replaces the first occurrence only. -/
def replaceFirstL (pat rep : GoStr) : GoStr → GoStr
  | [] => if pat.isPrefixOf ([] : GoStr) then rep else []
  | r :: rest =>
    if pat.isPrefixOf (r :: rest) then rep ++ (r :: rest).drop pat.length
    else r :: replaceFirstL pat rep rest

/-- Recursion core of Go strings.Replace with n = -1: replaces every
non-overlapping occurrence, scanning left to right.  The fuel argument
only drives structural termination: each step consumes at least one
rune, so fuel equal to the input length is never exhausted.  The
repository only calls Replace with a non-empty pattern; the
`pat ≠ []` guard keeps the empty-pattern case (unused) harmless. -/
def replaceAllFuel (pat rep : GoStr) : Nat → GoStr → GoStr
  | _, [] => []
  | 0, s => s
  | fuel + 1, r :: rest =>
    if pat.isPrefixOf (r :: rest) ∧ pat ≠ [] then
      rep ++ replaceAllFuel pat rep fuel (rest.drop (pat.length - 1))
    else
      r :: replaceAllFuel pat rep fuel rest

/-- Go strings.Replace with n = -1. -/
def replaceAllL (pat rep s : GoStr) : GoStr := replaceAllFuel pat rep s.length s

/-- Recursion core of Go strings.Split for a non-empty separator, with
the same fuel discipline as replaceAllFuel. -/
def splitFuel (sep : GoStr) : Nat → GoStr → List GoStr
  | _, [] => [[]]
  | 0, s => [s]
  | fuel + 1, r :: rest =>
    if sep.isPrefixOf (r :: rest) ∧ sep ≠ [] then
      [] :: splitFuel sep fuel (rest.drop (sep.length - 1))
    else
      match splitFuel sep fuel rest with
      | [] => [[r]]
      | h :: t => (r :: h) :: t

/-- Go strings.Split.  The repository only splits on non-empty
separators; the empty-separator case (Go: split into runes) is unused
and modelled as the identity partition. -/
def goSplit (s sep : GoStr) : List GoStr := if sep = [] then [s] else splitFuel sep s.length s

/-- ASCII white space, as probed by Go strings.TrimSpace on the ASCII
strings this development trims. -/
def isSpaceRune (r : Nat) : Bool := if r = 32 ∨ (9 ≤ r ∧ r ≤ 13) then true else false

/-- Go strings.TrimSpace. -/
def goTrimSpace (s : GoStr) : GoStr :=
  ((s.dropWhile isSpaceRune).reverse.dropWhile isSpaceRune).reverse

/-- Go strings.EqualFold, modelled as ASCII case folding (the receiver
type names it compares are Go identifiers). -/
def goEqualFold (a b : GoStr) : Bool := a.map goToLower == b.map goToLower

/-- Go strings.ToUpper, rune by rune (ASCII model). -/
def goToUpperStr (s : GoStr) : GoStr := s.map goToUpperRune

/-!  File-system model and the anchor-based text injector (cmd gen_api). -/

/-- The files the tool mutates: path to content, `none` when absent. -/
def FS : Type := GoStr → Option GoStr

/-- Whole-file rewrite (os.WriteFile). -/
def fsWrite (fs : FS) (p c : GoStr) : FS := fun q => if q = p then some c else fs q

/-- common.ApiInfo: the descriptor a gen-api run threads through the
injection steps. -/
structure ApiInfo where
  EntityName : GoStr
  LowerEntityName : GoStr
  TableName : GoStr
  MethodName : GoStr
  HttpVerb : GoStr
  ApiPath : GoStr
  FiberApiPath : GoStr
  FullApiPath : GoStr
  CapitalizedHttpVerb : GoStr
deriving DecidableEq

/-- common.InsertionMode. -/
inductive InsertionMode where
  | AppendToEnd
  | InsertAfterBrace
  | InsertAfterLine
deriving DecidableEq

/-- The failure cases of appendToFile, as structured data (the Go code
returns formatted error strings carrying the same information). -/
inductive InjectErr where
  | readFail (filePath : GoStr)
  | anchorRequired (mode : InsertionMode)
  | anchorNotFound (filePath anchor : GoStr)
  | braceNotFound (anchor : GoStr)
deriving DecidableEq

/-- Rendering of an anchor template against the ApiInfo context.  Every
anchor template occurring in the repository either is a plain literal or
references only the EntityName field, so text/template execution is the
substitution of that one placeholder. -/
def renderAnchor (anchorTmplStr : GoStr) (info : ApiInfo) : GoStr :=
  replaceAllL (gs "\x7b\x7b.EntityName\x7d\x7d") info.EntityName anchorTmplStr

/-- cmd appendToFile: the anchor-based text injector.  Reads the target
(an absent file makes os.ReadFile fail, and the error is returned),
then splices according to the mode and rewrites the whole file.
The rune 123 is the opening curly bracket. -/
def appendToFile (fs : FS) (filePath codeSnippet : GoStr) (info : ApiInfo)
    (anchorTmplStr : GoStr) (mode : InsertionMode) : Except InjectErr FS :=
  match fs filePath with
  | none => .error (.readFail filePath)
  | some content =>
    match mode with
    | .AppendToEnd => .ok (fsWrite fs filePath (content ++ gs "\n" ++ codeSnippet))
    | .InsertAfterLine =>
      if anchorTmplStr = [] then .error (.anchorRequired .InsertAfterLine) else
      let renderedAnchor := renderAnchor anchorTmplStr info
      match strIndexL renderedAnchor content with
      | none => .error (.anchorNotFound filePath renderedAnchor)
      | some anchorPos =>
        let ip := anchorPos + renderedAnchor.length
        .ok (fsWrite fs filePath (content.take ip ++ gs "\n" ++ codeSnippet ++ content.drop ip))
    | .InsertAfterBrace =>
      if anchorTmplStr = [] then .error (.anchorRequired .InsertAfterBrace) else
      let renderedAnchor := renderAnchor anchorTmplStr info
      match strIndexL renderedAnchor content with
      | none => .error (.anchorNotFound filePath renderedAnchor)
      | some anchorPos =>
        match strIndexL [123] (content.drop anchorPos) with
        | none => .error (.braceNotFound renderedAnchor)
        | some bracePos =>
          let ip := anchorPos + bracePos + 1
          .ok (fsWrite fs filePath (content.take ip ++ codeSnippet ++ content.drop ip))

/-!  The gen-api multi-file orchestration (cmd injectGeneratedCode). -/

/-- LLMCodeSnippets: one generated fragment per architectural layer. -/
structure LLMCodeSnippets where
  RepoInterfaceMethod : GoStr
  RepoImplMethod : GoStr
  ServiceInterface : GoStr
  ServiceImplMethod : GoStr
  HandlerMethod : GoStr
  RouterLine : GoStr
  MapperFullContent : GoStr
deriving DecidableEq

/-- common.ProjectPathConfig: the five directory/file roles. -/
structure ProjectPathConfig where
  RepoInterfaceDir : GoStr
  RepoImplDir : GoStr
  ServiceDir : GoStr
  HandlerDir : GoStr
  RouterFile : GoStr
deriving DecidableEq

/-- The group-creation line gen-api looks for and creates:
lowerRoutes := apiV1.Group("/table"). -/
def groupDefinition (info : ApiInfo) : GoStr :=
  info.LowerEntityName ++ gs "Routes := apiV1.Group(\"/" ++ info.TableName ++ gs "\")"

/-- The code ensureRouteGroupExists splices in when the group is missing. -/
def routeGroupCreation (info : ApiInfo) : GoStr :=
  gs "\n\t// " ++ info.EntityName ++ gs " routes\n\t" ++ groupDefinition info

/-- The fixed anchor line the route group is created under. -/
def apiV1Anchor : GoStr := gs "apiV1 := r.App.Group(\"/api/v1\")"

/-- cmd ensureRouteGroupExists: creates the entity's route group after
the apiV1 anchor unless the group-creation line is already present. -/
def ensureRouteGroupExists (routerPath : GoStr) (info : ApiInfo) (fs : FS) : Except InjectErr FS :=
  match fs routerPath with
  | none => .error (.readFail routerPath)
  | some content =>
    if goContains content (groupDefinition info) then .ok fs
    else appendToFile fs routerPath (routeGroupCreation info) info apiV1Anchor .InsertAfterLine

/-- One entry of the task table inside injectGeneratedCode. -/
structure InsertionTask where
  filePath : GoStr
  codeSnippet : GoStr
  anchor : GoStr
  mode : InsertionMode
deriving DecidableEq

/-- The task table of injectGeneratedCode, with the %s file-path
placeholders already substituted by the snake-cased entity name. -/
def injectTasks (paths : ProjectPathConfig) (info : ApiInfo) (sn : LLMCodeSnippets) : List InsertionTask :=
  let snake := ToSnakeCase info.EntityName
  [ ⟨paths.RepoInterfaceDir ++ gs "/" ++ snake ++ gs "_repository.go",
      gs "\n\t" ++ sn.RepoInterfaceMethod,
      gs "type \x7b\x7b.EntityName\x7d\x7dRepository interface", .InsertAfterBrace⟩,
    ⟨paths.RepoImplDir ++ gs "/" ++ snake ++ gs "_repository_impl.go",
      gs "\n" ++ sn.RepoImplMethod, [], .AppendToEnd⟩,
    ⟨paths.ServiceDir ++ gs "/" ++ snake ++ gs "_service.go",
      gs "\n\t" ++ sn.ServiceInterface,
      gs "type \x7b\x7b.EntityName\x7d\x7dService interface", .InsertAfterBrace⟩,
    ⟨paths.ServiceDir ++ gs "/" ++ snake ++ gs "_service.go",
      gs "\n" ++ sn.ServiceImplMethod, [], .AppendToEnd⟩,
    ⟨paths.HandlerDir ++ gs "/" ++ snake ++ gs "_handler.go",
      gs "\n" ++ sn.HandlerMethod, [], .AppendToEnd⟩,
    ⟨paths.RouterFile,
      gs "\n\t" ++ sn.RouterLine, groupDefinition info, .InsertAfterLine⟩ ]

/-- Sequential application of the insertion tasks, stopping at the
first error (the Go loop returns the first failing step's error). -/
def runTasks (info : ApiInfo) : List InsertionTask → FS → Except InjectErr FS
  | [], fs => .ok fs
  | t :: rest, fs =>
    match appendToFile fs t.filePath t.codeSnippet info t.anchor t.mode with
    | .error e => .error e
    | .ok fs' => runTasks info rest fs'

/-- The mapper file path used by step 1 of injectGeneratedCode. -/
def mapperPathOf (info : ApiInfo) : GoStr :=
  gs "internal/interfaces/dto/" ++ ToSnakeCase info.EntityName ++ gs "_mapper.go"

/-- cmd injectGeneratedCode: (1) overwrite the mapper when the snippet
record carries full mapper content, (2) ensure the route group exists,
(3) run the six insertion tasks in order.  The project-path resolution
(common.GetProjectPaths) is modelled as the explicit paths argument. -/
def injectGeneratedCode (paths : ProjectPathConfig) (info : ApiInfo) (sn : LLMCodeSnippets)
    (fs : FS) : Except InjectErr FS :=
  let fs1 := if sn.MapperFullContent ≠ [] then fsWrite fs (mapperPathOf info) sn.MapperFullContent else fs
  match ensureRouteGroupExists paths.RouterFile info fs1 with
  | .error e => .error e
  | .ok fs2 => runTasks info (injectTasks paths info sn) fs2

/-!  The router-file structural parser (cmd sync_router parseRoutes). -/

/-- The statement shapes parseRoutes reacts to while walking the router
file in source order.  groupAssign models an assignment whose
right-hand side calls a method literally named Group with a
string-literal first argument (lit is the literal without its quotes,
as produced by the strings.Trim in the source).  routeCall models a
call whose callee is a selector named methName, with at least two
arguments, the first a string literal and the second a selector of the
shape x.Handler.Fn.  Every other node is otherStmt. -/
inductive RouterStmt where
  | groupAssign (lit : GoStr)
  | routeCall (methName lit handler fn : GoStr)
  | otherStmt
deriving DecidableEq

/-- RouteInfo from cmd sync_router. -/
structure RouteInfo where
  HTTPMethod : GoStr
  Path : GoStr
  Handler : GoStr
  Function : GoStr
deriving DecidableEq

/-- The route table keyed by "HandlerType.MethodName". -/
def RouteMap : Type := GoStr → Option RouteInfo

/-- cmd isHTTPMethod. -/
def isHTTPMethod (m : GoStr) : Bool :=
  m == gs "GET" || m == gs "POST" || m == gs "PUT" || m == gs "DELETE" ||
  m == gs "PATCH" || m == gs "HEAD" || m == gs "OPTIONS"

/-- One visit step of parseRoutes: the state is the current group
prefix together with the route map built so far. -/
def routeStep (st : GoStr × RouteMap) (stmt : RouterStmt) : GoStr × RouteMap :=
  match stmt with
  | .groupAssign lit => (gs "/api/v1" ++ lit, st.2)
  | .routeCall methName lit handler fn =>
    let httpMethod := goToUpperStr methName
    if isHTTPMethod httpMethod then
      let routePath := replaceAllL (gs "//") (gs "/") (st.1 ++ lit)
      let key := handler ++ gs "." ++ fn
      (st.1, fun k => if k = key then some ⟨httpMethod, routePath, handler, fn⟩ else st.2 k)
    else st
  | .otherStmt => st

/-- cmd parseRoutes: sequential scan with an initially empty group
prefix and an initially empty map. -/
def parseRoutes (stmts : List RouterStmt) : RouteMap :=
  (stmts.foldl routeStep (([] : GoStr), fun _ => none)).2

/-!  The AST-based structural merger (internal/command gen_logic). -/

/-- The receiver type expression of a FuncDecl: a pointer to an
identifier, a plain identifier, or any other expression shape.
`none` stands for an absent or empty receiver field list. -/
inductive RecvExpr where
  | star (name : GoStr)
  | ident (name : GoStr)
  | otherExpr
deriving DecidableEq

/-- internal/command getReceiverTypeName: the base identifier of the
receiver type, or the empty string. -/
def getReceiverTypeName : Option RecvExpr → GoStr
  | none => []
  | some (.star n) => n
  | some (.ident n) => n
  | some .otherExpr => []

/-- A parsed Go function declaration, at the granularity the merger
manipulates: the documentation comment block (one entry per comment
line, text as written), the name, the receiver, and opaque identities
for the signature and the body (the merger moves them around but never
looks inside them). -/
structure FuncDecl where
  doc : Option (List GoStr)
  name : GoStr
  recv : Option RecvExpr
  sig : Nat
  body : Nat
deriving DecidableEq

/-- A top-level Go declaration: a function, or anything else (opaque). -/
inductive GoDecl where
  | funcDecl (f : FuncDecl)
  | otherDecl (id : Nat)
deriving DecidableEq

/-- A parsed Go file: package clause and top-level declarations. -/
structure GoFile where
  pkgName : GoStr
  decls : List GoDecl
deriving DecidableEq

/-- The file system at the granularity the merger sees it: each present
file is its parse result.  (Target files that fail to parse make the
Go function abort; the claims under study only concern parseable or
absent targets, so contents are modelled post-parse.) -/
def AstFS : Type := GoStr → Option GoFile

/-- Whole-file rewrite at the AST granularity.  The Go code pretty-prints
the tree through format.Node / format.Source before writing; canonical
formatting is modelled as the identity on the tree. -/
def astWrite (fs : AstFS) (p : GoStr) (f : GoFile) : AstFS :=
  fun q => if q = p then some f else fs q

/-- internal/command hasSwaggerAnnotations: a nil comment group has
none; otherwise some comment line contains the at-sign (rune 64) -
the Go code tests strings.Contains(comment.Text, "@"). -/
def hasSwaggerAnnotations : Option (List GoStr) → Bool
  | none => false
  | some l => l.any (fun c => goContains c (gs "@"))

/-- The match test of the astutil.Apply visitor inside
smartReplaceOrAddMethods: same function name and receiver base type
equal to the target struct name under strings.EqualFold. -/
def matchesMethod (fd : FuncDecl) (methodName targetStructName : GoStr) : Bool :=
  fd.name == methodName && goEqualFold (getReceiverTypeName fd.recv) targetStructName

/-- The declaration-level view of matchesMethod. -/
def declMatches (d : GoDecl) (methodName targetStructName : GoStr) : Bool :=
  match d with
  | .funcDecl fd => matchesMethod fd methodName targetStructName
  | .otherDecl _ => false

/-- The documentation block kept on a merged method: the original block
when it has annotations the fragment's block lacks, else the
fragment's block. -/
def mergeDoc (oldM newM : FuncDecl) : Option (List GoStr) :=
  if hasSwaggerAnnotations oldM.doc && !hasSwaggerAnnotations newM.doc then oldM.doc else newM.doc

/-- In-place update of the first declaration matching the fragment's
name and the target receiver: only the doc (per mergeDoc) and the body
change.  Returns none when no declaration matches, which is the
append trigger. -/
def replaceFirstMethod (newM : FuncDecl) (targetStructName : GoStr) : List GoDecl → Option (List GoDecl)
  | [] => none
  | d :: rest =>
    if declMatches d newM.name targetStructName then
      match d with
      | .funcDecl fd =>
        some (.funcDecl { fd with doc := mergeDoc fd newM, body := newM.body } :: rest)
      | .otherDecl _ => none
    else
      (replaceFirstMethod newM targetStructName rest).map (d :: ·)

/-- The failure cases of smartReplaceOrAddMethods.  fragmentUnparsable
carries the fragment text, mirroring the Go error that embeds the
snippet; the no-function-declaration error does not carry it. -/
inductive MergeErr where
  | fragmentUnparsable (raw : GoStr)
  | noFuncDecl
deriving DecidableEq

/-- filepath.Base(filepath.Dir(p)) for the slash-separated relative
paths the generator builds: the next-to-last path segment. -/
def pkgNameOfPath (p : GoStr) : GoStr :=
  match (goSplit p (gs "/")).dropLast with
  | [] => gs "."
  | ds => ds.getLastD (gs ".")

/-- internal/command smartReplaceOrAddMethods.  `raw` is the fragment
text and `parsed` its parse as a standalone compilation unit
(go/parser on "package temp\n" + raw, run outside this model): `none`
models a parse error.  A blank fragment is a silent no-op; a parse
error or an empty declaration list aborts with the fragment text; a
first declaration that is not a function aborts; otherwise only the
first declaration is used: the first matching method's body (and doc,
per mergeDoc) is replaced in place, or the fragment's declaration is
appended at the end.  An absent target file is synthesized as an empty
compilation unit whose package name derives from the directory. -/
def smartReplaceOrAddMethods (fs : AstFS) (filePath raw : GoStr)
    (parsed : Option (List GoDecl)) (targetStructName : GoStr) : Except MergeErr AstFS :=
  if goTrimSpace raw = [] then .ok fs
  else
    match parsed with
    | none => .error (.fragmentUnparsable raw)
    | some [] => .error (.fragmentUnparsable raw)
    | some (d :: _) =>
      match d with
      | .otherDecl _ => .error .noFuncDecl
      | .funcDecl newMethod =>
        let target : GoFile :=
          match fs filePath with
          | some f => f
          | none => { pkgName := pkgNameOfPath filePath, decls := [] }
        let newDecls :=
          match replaceFirstMethod newMethod targetStructName target.decls with
          | some ds => ds
          | none => target.decls ++ [.funcDecl newMethod]
        .ok (astWrite fs filePath { target with decls := newDecls })

/-- The caller-side view of one merge: the files after the call, which
are unchanged whenever the merge aborts (the Go function only writes
at the very end). -/
def runSmartReplace (fs : AstFS) (filePath raw : GoStr)
    (parsed : Option (List GoDecl)) (targetStructName : GoStr) : AstFS :=
  match smartReplaceOrAddMethods fs filePath raw parsed targetStructName with
  | .ok fs' => fs'
  | .error _ => fs

/-!  Entity parsing (cmd generate parseEntityFile) and the generate-run
pipeline around it. -/

/-- FieldInfo from cmd generate. -/
structure FieldInfo where
  Name : GoStr
  Type' : GoStr
  GormName : GoStr
  LowerName : GoStr
  DTOType : GoStr
  IsAssociation : Bool
  IsSlice : Bool
  BaseType : GoStr
deriving DecidableEq

/-- The zero FieldInfo (Go zero value). -/
def emptyFieldInfo : FieldInfo :=
  { Name := [], Type' := [], GormName := [], LowerName := [], DTOType := [],
    IsAssociation := false, IsSlice := false, BaseType := [] }

/-- EntityInfo from cmd generate. -/
structure EntityInfo where
  ProjectModule : GoStr
  EntityName : GoStr
  LowerEntityName : GoStr
  TableName : GoStr
  PrimaryKey : FieldInfo
  Fields : List FieldInfo
  NoCrudMethods : Bool
deriving DecidableEq

/-- One struct field as the entity parser sees it: the name list (empty
for embedded fields, which the parser skips), the source text of the
type expression, and the struct tag with its surrounding backquotes
already trimmed (`none` when the field has no tag). -/
structure GoField where
  names : List GoStr
  typeExpr : GoStr
  tag : Option GoStr
deriving DecidableEq

/-- A struct type declaration: name and field list. -/
structure GoStruct where
  name : GoStr
  fields : List GoField
deriving DecidableEq

/-- An entity file as the parser walks it: its struct declarations in
source order, and the string literal returned by a TableName method
when one exists (unquoted, as produced by the strings.Trim in the
source). -/
structure EntityFileAst where
  structs : List GoStruct
  tableNameLit : Option GoStr
deriving DecidableEq

/-- The gorm-tag scan of parseEntityFile: the declared column name (empty
when none) and whether the tag marks the field as primary key.  Mirrors
the source: take the text between gorm:" and the next quote, split on
semicolons, react to column: parts and to the literal primaryKey part. -/
def parseGormTag (tag : Option GoStr) : GoStr × Bool :=
  match tag with
  | none => ([], false)
  | some t =>
    if goContains t (gs "gorm:\"") then
      let gormTag := ((goSplit ((goSplit t (gs "gorm:\"")).getD 1 []) (gs "\"")).getD 0 [])
      let parts := goSplit gormTag (gs ";")
      parts.foldl
        (fun (acc : GoStr × Bool) part =>
          (if goHasPre part (gs "column:") then (goSplit part (gs ":")).getD 1 [] else acc.1,
           if part == gs "primaryKey" then true else acc.2))
        ([], false)
    else ([], false)

/-- cmd isKnownType. -/
def isKnownType (t : GoStr) : Bool :=
  t == gs "string" || t == gs "int" || t == gs "int8" || t == gs "int16" ||
  t == gs "int32" || t == gs "int64" || t == gs "uint" || t == gs "uint8" ||
  t == gs "uint16" || t == gs "uint32" || t == gs "uint64" || t == gs "float32" ||
  t == gs "float64" || t == gs "bool" || t == gs "byte" || t == gs "rune" ||
  t == gs "time.Time" || t == gs "uuid.UUID"

/-- ASCII word rune, the \w class of the DTO-type regular expression. -/
def isWordRune (r : Nat) : Bool :=
  if (48 ≤ r ∧ r ≤ 57) ∨ (65 ≤ r ∧ r ≤ 90) ∨ (97 ≤ r ∧ r ≤ 122) ∨ r = 95 then true else false

/-- The regular expression of convertToDTOType: an optional [] or *
followed by an upper-case-initial word spanning the whole string;
returns the two capture groups.  Runes 91, 93 and 42 are the square
brackets and the asterisk. -/
def matchDTOPattern (s : GoStr) : Option (GoStr × GoStr) :=
  let (pre, rest) :=
    if (gs "[]").isPrefixOf s then (gs "[]", s.drop 2)
    else if (gs "*").isPrefixOf s then (gs "*", s.drop 1)
    else ([], s)
  match rest with
  | [] => none
  | c :: cs =>
    if (if 65 ≤ c ∧ c ≤ 90 then true else false) && cs.all isWordRune then some (pre, rest)
    else none

/-- cmd convertToDTOType. -/
def convertToDTOType (entityType : GoStr) : GoStr :=
  match matchDTOPattern entityType with
  | some (pre, baseType) =>
    if isKnownType baseType then entityType else pre ++ baseType ++ gs "Response"
  | none => entityType

/-- The FieldInfo built for one named field, from the field name, the
type-expression text and the (trimmed) tag. -/
def mkFieldInfo (fieldName fieldType : GoStr) (tag : Option GoStr) : FieldInfo :=
  let gormName0 := (parseGormTag tag).1
  let gormName := if gormName0 = [] then ToSnakeCase fieldName else gormName0
  let isSlice := goHasPre fieldType (gs "[]")
  let baseType := goTrimPre (goTrimPre fieldType (gs "[]")) (gs "*")
  let isAssociation :=
    !isKnownType baseType &&
      (match baseType with | c :: _ => goIsUpper c | [] => false)
  { Name := fieldName, Type' := fieldType, GormName := gormName,
    LowerName := ToLowerCamel fieldName, DTOType := convertToDTOType fieldType,
    IsAssociation := isAssociation, IsSlice := isSlice, BaseType := baseType }

/-- Processing of one struct field inside the inspect callback: fields
without names are skipped; otherwise the FieldInfo is appended and, on
a primaryKey tag, recorded as the primary key. -/
def processField (info : EntityInfo) (f : GoField) : EntityInfo :=
  match f.names with
  | [] => info
  | n :: _ =>
    let fi := mkFieldInfo n f.typeExpr f.tag
    let info' := { info with Fields := info.Fields ++ [fi] }
    if (parseGormTag f.tag).2 then { info' with PrimaryKey := fi } else info'

/-- Processing of one struct declaration: the entity name fields are
overwritten, then every field is processed in order. -/
def processStruct (info : EntityInfo) (st : GoStruct) : EntityInfo :=
  st.fields.foldl processField
    { info with EntityName := st.name, LowerEntityName := ToLowerCamel st.name }

/-- The error reported when the file declares no struct. -/
def noStructMsg : GoStr := gs "在文件中未找到任何 struct 定义"

/-- The error reported when no field carries a primaryKey tag. -/
def noPrimaryKeyMsg : GoStr := gs "未找到 gorm:\"primaryKey\" 标签，请在主键字段上明确添加"

/-- cmd parseEntityFile: walk the file, then fail when no struct was
found or no primary key was tagged; default the table name to the
snake-cased entity name plus a plural s when no TableName method set
it. -/
def parseEntityFile (file : EntityFileAst) (projectModule : GoStr) : Except GoStr EntityInfo :=
  let init : EntityInfo :=
    { ProjectModule := projectModule, EntityName := [], LowerEntityName := [],
      TableName := (match file.tableNameLit with | some t => t | none => []),
      PrimaryKey := emptyFieldInfo, Fields := [], NoCrudMethods := false }
  let info := file.structs.foldl processStruct init
  if info.EntityName = [] then .error noStructMsg
  else if info.PrimaryKey.Name = [] then .error noPrimaryKeyMsg
  else .ok { info with
              TableName := if info.TableName = [] then ToSnakeCase info.EntityName ++ gs "s"
                           else info.TableName }

/-- The control flow of cmd runGenerate around the parse: when parsing
fails the run returns before any generation step, leaving the files
untouched; otherwise the generation steps (template rendering, file
writes, DI and router wiring), abstracted as `gen`, run on the parsed
EntityInfo. -/
def runGenerateModel (gen : EntityInfo → FS → FS) (fs : FS) (file : EntityFileAst)
    (projectModule : GoStr) : FS :=
  match parseEntityFile file projectModule with
  | .error _ => fs
  | .ok info => gen info fs

/-!  The generate-command router injection (internal/command modifier). -/

/-- The generator anchor comment in the router and DI files. -/
def generatorAnchor : GoStr := gs "// [GENERATOR ANCHOR] - Don't remove this comment!"

/-- The idempotency marker addRoutesToRouter checks for. -/
def routesMarker (info : EntityInfo) : GoStr := gs "// " ++ info.EntityName ++ gs " routes"

/-- The part of the rendered route template after the marker line: the
five CRUD route lines and the re-emitted generator anchor. -/
def routesBlockTail (info : EntityInfo) : GoStr :=
  gs "\n\t" ++ info.LowerEntityName ++ gs "Routes := apiV1.Group(\"/" ++ info.TableName ++ gs "\")" ++
  gs "\n\t" ++ info.LowerEntityName ++ gs "Routes.Post(\"/\", r." ++ info.EntityName ++ gs "Handler.Create)" ++
  gs "\n\t" ++ info.LowerEntityName ++ gs "Routes.Get(\"/\", r." ++ info.EntityName ++ gs "Handler.GetAll)" ++
  gs "\n\t" ++ info.LowerEntityName ++ gs "Routes.Get(\"/:id\", r." ++ info.EntityName ++ gs "Handler.GetByID)" ++
  gs "\n\t" ++ info.LowerEntityName ++ gs "Routes.Put(\"/:id\", r." ++ info.EntityName ++ gs "Handler.Update)" ++
  gs "\n\t" ++ info.LowerEntityName ++ gs "Routes.Delete(\"/:id\", r." ++ info.EntityName ++ gs "Handler.Delete)" ++
  gs "\n\n\t" ++ generatorAnchor

/-- The rendered route template of addRoutesToRouter: a tab-indented
marker line, the CRUD route block, and the re-emitted generator
anchor. -/
def routesBlock (info : EntityInfo) : GoStr :=
  gs "\n\t" ++ routesMarker info ++ routesBlockTail info

/-- internal/command addRoutesToRouter: a no-op when the entity's route
marker is already present, otherwise the first generator anchor is
replaced by the rendered route block and the file rewritten (gofmt is
modelled as the identity; its failure path writes the same unformatted
content). -/
def addRoutesToRouter (info : EntityInfo) (routerFile : GoStr) (fs : FS) : Except GoStr FS :=
  match fs routerFile with
  | none => .error (gs "read failure" ++ routerFile)
  | some content =>
    if goContains content (routesMarker info) then .ok fs
    else .ok (fsWrite fs routerFile (replaceFirstL generatorAnchor (routesBlock info) content))

/-- Whether a statement is the Group-assignment shape that updates the
current group prefix. -/
def isGroupAssign : RouterStmt → Bool
  | .groupAssign _ => true
  | _ => false

/-- Whether a statement records a route under the given map key. -/
def writesRouteKey (key : GoStr) : RouterStmt → Bool
  | .routeCall methName _ handler fn =>
    isHTTPMethod (goToUpperStr methName) && (handler ++ gs "." ++ fn == key)
  | _ => false

/-!  Concrete values used by witnesses and counterexamples. -/

/-- Constructor test for Except results. -/
def exceptIsOk {ε α : Type} : Except ε α → Bool
  | .ok _ => true
  | .error _ => false

/-- A one-file file system for the AppendToEnd witness. -/
def c3DemoFs : FS := fun p => if p = gs "a/b.go" then some (gs "package b") else none

/-- The DDD path preset, as resolved by common.GetProjectPaths when
internal/application exists. -/
def demoPathsDDD : ProjectPathConfig :=
  { RepoInterfaceDir := gs "internal/domain/repository",
    RepoImplDir := gs "internal/infrastructure/persistence",
    ServiceDir := gs "internal/application/service",
    HandlerDir := gs "internal/interfaces/handler",
    RouterFile := gs "internal/infrastructure/router/router.go" }

/-- A concrete ApiInfo for a Widget.Promote gen-api run. -/
def demoApiInfo : ApiInfo :=
  { EntityName := gs "Widget", LowerEntityName := gs "widget", TableName := gs "widgets",
    MethodName := gs "Promote", HttpVerb := gs "POST", ApiPath := gs "/:id/promote",
    FiberApiPath := gs "/:id/promote", FullApiPath := gs "/api/v1/widgets/:id/promote",
    CapitalizedHttpVerb := gs "Post" }

/-- Concrete generated snippets for the Widget.Promote run. -/
def demoSnippets : LLMCodeSnippets :=
  { RepoInterfaceMethod := gs "Promote(id uint) error",
    RepoImplMethod := gs "func (r *widgetRepositoryImpl) Promote(id uint) error \x7b return nil \x7d",
    ServiceInterface := gs "Promote(id uint) error",
    ServiceImplMethod := gs "func (s *widgetServiceImpl) Promote(id uint) error \x7b return nil \x7d",
    HandlerMethod := gs "func (h *WidgetHandler) Promote(c *fiber.Ctx) error \x7b return nil \x7d",
    RouterLine := gs "widgetRoutes.Post(\"/:id/promote\", r.WidgetHandler.Promote)",
    MapperFullContent := [] }

/-- The five target files of the Widget gen-api run, before any run. -/
def c2DemoFs : FS := fun p =>
  if p = gs "internal/infrastructure/router/router.go" then
    some (gs "apiV1 := r.App.Group(\"/api/v1\")\n")
  else if p = gs "internal/domain/repository/widget_repository.go" then
    some (gs "type WidgetRepository interface \x7b\n\x7d\n")
  else if p = gs "internal/infrastructure/persistence/widget_repository_impl.go" then
    some (gs "package persistence\n")
  else if p = gs "internal/application/service/widget_service.go" then
    some (gs "type WidgetService interface \x7b\n\x7d\n")
  else if p = gs "internal/interfaces/handler/widget_handler.go" then
    some (gs "package handler\n")
  else none

/-- The files after one Widget gen-api injection run. -/
def c2Once : FS :=
  match injectGeneratedCode demoPathsDDD demoApiInfo demoSnippets c2DemoFs with
  | .ok f => f
  | .error _ => c2DemoFs

/-- The files after a second, identical injection run. -/
def c2Twice : FS :=
  match injectGeneratedCode demoPathsDDD demoApiInfo demoSnippets c2Once with
  | .ok f => f
  | .error _ => c2Once

/-- The existing service method the two-declaration fragment targets. -/
def c9OldMethod : FuncDecl :=
  { doc := none, name := gs "Promote", recv := some (.star (gs "widgetServiceImpl")),
    sig := 0, body := 0 }

/-- First declaration of the two-declaration fragment. -/
def c9FragA : FuncDecl :=
  { doc := none, name := gs "Promote", recv := some (.star (gs "widgetServiceImpl")),
    sig := 1, body := 1 }

/-- Second declaration of the two-declaration fragment. -/
def c9FragB : FuncDecl :=
  { doc := none, name := gs "Helper", recv := none, sig := 2, body := 2 }

/-- The fragment text containing two function declarations. -/
def c9Raw : GoStr :=
  gs "func (s *widgetServiceImpl) Promote() error \x7b return nil \x7d\n\nfunc Helper() \x7b\x7d"

/-- A parsed file system holding the target service file. -/
def c9AstFs : AstFS := fun p =>
  if p = gs "internal/application/service/widget_service.go" then
    some { pkgName := gs "service", decls := [.funcDecl c9OldMethod] }
  else none

/-- A file system holding the repository-interface file targeted by the
InsertAfterBrace witness. -/
def c5DemoFs : FS := fun p =>
  if p = gs "internal/domain/repository/widget_repository.go" then
    some (gs "package repository\n\ntype WidgetRepository interface \x7b\n\x7d\n")
  else none

/-- A file whose content contains the rendered anchor but no opening
brace after it. -/
def c5NoBraceFs : FS := fun p =>
  if p = gs "r.go" then some (gs "type WidgetRepository interface") else none

/-- A fragment method on the Widget repository-impl receiver, used to
exercise the append branch against a service file. -/
def c1FragRepo : FuncDecl :=
  { doc := none, name := gs "Promote", recv := some (.star (gs "widgetRepositoryImpl")),
    sig := 3, body := 3 }

/-- An existing method whose comment block carries a Swagger @-line. -/
def c8OldMethod : FuncDecl :=
  { doc := some [gs "// Promote promotes a widget", gs "// @Router /api/v1/widgets [post]"],
    name := gs "Promote", recv := some (.star (gs "widgetServiceImpl")), sig := 0, body := 0 }

/-- A fragment whose comment block also carries an @-line. -/
def c8FragSwag : FuncDecl :=
  { doc := some [gs "// @Summary promote"], name := gs "Promote",
    recv := some (.star (gs "widgetServiceImpl")), sig := 4, body := 4 }

/-- A parsed file system holding the annotated service method. -/
def c8AstFs : AstFS := fun p =>
  if p = gs "internal/application/service/widget_service.go" then
    some { pkgName := gs "service", decls := [.funcDecl c8OldMethod] }
  else none

/-- An entity file whose struct tags no primary key. -/
def c6NoPkFile : EntityFileAst :=
  { structs := [{ name := gs "Widget",
                  fields := [{ names := [gs "Name"], typeExpr := gs "string", tag := none }] }],
    tableNameLit := none }

/-- An entity file with a primary key and a field without an explicit
column name. -/
def c6DemoFile : EntityFileAst :=
  { structs := [{ name := gs "Widget",
                  fields :=
                    [{ names := [gs "ID"], typeExpr := gs "uint",
                       tag := some (gs "json:\"id\" gorm:\"primaryKey\"") },
                     { names := [gs "UserName"], typeExpr := gs "string", tag := none }] }],
    tableNameLit := none }

/-- The EntityInfo parsed from c6DemoFile. -/
def c6Info : EntityInfo :=
  match parseEntityFile c6DemoFile (gs "example.com/app") with
  | .ok i => i
  | .error _ =>
    { ProjectModule := [], EntityName := [], LowerEntityName := [], TableName := [],
      PrimaryKey := emptyFieldInfo, Fields := [], NoCrudMethods := false }

/-- The EntityInfo of a Widget generate run, as used by the modifier. -/
def c2EntityInfo : EntityInfo :=
  { ProjectModule := gs "example.com/app", EntityName := gs "Widget",
    LowerEntityName := gs "widget", TableName := gs "widgets",
    PrimaryKey := emptyFieldInfo, Fields := [], NoCrudMethods := false }

/-- A router file carrying the generator anchor, for the modifier
witness. -/
def c2ModFs : FS := fun p =>
  if p = gs "internal/infrastructure/router/router.go" then
    some (gs "apiV1 := r.App.Group(\"/api/v1\")\n\t// [GENERATOR ANCHOR] - Don't remove this comment!\n")
  else none

/-- The files after one addRoutesToRouter run on c2ModFs. -/
def c2RouterOnce : FS :=
  match addRoutesToRouter c2EntityInfo (gs "internal/infrastructure/router/router.go") c2ModFs with
  | .ok f => f
  | .error _ => c2ModFs

/-- The files after one ensureRouteGroupExists run on c2DemoFs. -/
def c2EnsureOnce : FS :=
  match ensureRouteGroupExists (gs "internal/infrastructure/router/router.go") demoApiInfo c2DemoFs with
  | .ok f => f
  | .error _ => c2DemoFs

/-!  Helper lemmas. -/

theorem goIsUpper_goToLower (r : Nat) (h : r < 128) : goIsUpper (goToLower r) = false := by
  unfold goToLower goIsUpper
  by_cases h1 : 65 ≤ r ∧ r ≤ 90
  · simp only [if_pos h1]
    rw [if_neg (by omega)]
  · simp only [if_neg h1]
    rw [if_neg (by omega)]

theorem snakeLoop_no_upper (prev : Option Nat) (s : GoStr) (h : ∀ r ∈ s, r < 128) :
    ∀ r ∈ snakeLoop prev s, goIsUpper r = false := by
  induction s generalizing prev with
  | nil => intro r hr; simp [snakeLoop] at hr
  | cons c rest ih =>
    intro r hr
    have hc : c < 128 := h c (List.mem_cons_self c rest)
    have hrest : ∀ x ∈ rest, x < 128 := fun x hx => h x (List.mem_cons_of_mem c hx)
    simp only [snakeLoop] at hr
    by_cases hu : goIsUpper c = true
    · rw [if_pos hu] at hr
      rcases List.mem_append.mp hr with hl | hrec
      · by_cases hcond : snakePrevNext prev rest = true
        · rw [if_pos hcond] at hl
          rcases List.mem_cons.mp hl with rfl | hl2
          · decide
          · rcases List.mem_singleton.mp hl2 with rfl
            exact goIsUpper_goToLower c hc
        · rw [if_neg hcond] at hl
          rcases List.mem_singleton.mp hl with rfl
          exact goIsUpper_goToLower c hc
      · exact ih (some c) hrest r hrec
    · rw [if_neg hu] at hr
      rcases List.mem_cons.mp hr with rfl | hrec
      · simpa using hu
      · exact ih (some c) hrest r hrec

theorem snakeLoop_fixed (prev : Option Nat) (s : GoStr) (h : ∀ r ∈ s, goIsUpper r = false) :
    snakeLoop prev s = s := by
  induction s generalizing prev with
  | nil => rfl
  | cons c rest ih =>
    have hc : goIsUpper c = false := h c (List.mem_cons_self c rest)
    simp only [snakeLoop]
    rw [if_neg (by simp [hc])]
    exact congrArg (c :: ·) (ih (some c) (fun x hx => h x (List.mem_cons_of_mem c hx)))

/-!  Claim theorems. -/

/-- C7: naming-utility postconditions: ToSnakeCase("UserID") is
"user_id", ToPluralSnakeCase("Category") is "categories", and
ToPluralSnakeCase("Bus") is "buses". -/
theorem claim_C7_naming_utilities :
    ToSnakeCase (gs "UserID") = gs "user_id" ∧
    ToPluralSnakeCase (gs "Category") = gs "categories" ∧
    ToPluralSnakeCase (gs "Bus") = gs "buses" := by
  decide

/-- C10, counterexample: ToSnakeCase is not idempotent on every input.
On "A" followed by U+2115 (an upper-case rune Go's unicode.ToLower
maps to itself), the first pass yields "a"+U+2115 with no underscore
(the rune before U+2115 is the upper-case "A"), and the second pass
then inserts an underscore because that rune is now the lower-case
"a". -/
theorem claim_C10_counterexample :
    ToSnakeCase (ToSnakeCase (gs "Aℕ")) ≠ ToSnakeCase (gs "Aℕ") := by
  decide

/-- C10, amended: ToSnakeCase is idempotent on every string of ASCII
runes: there its output contains no upper-case rune, and it is the
identity on strings without upper-case runes. -/
theorem claim_C10_snake_idempotent_ascii (s : GoStr) (h : ∀ r ∈ s, r < 128) :
    ToSnakeCase (ToSnakeCase s) = ToSnakeCase s := by
  unfold ToSnakeCase
  exact snakeLoop_fixed none _ (snakeLoop_no_upper none s h)

/-- C10, witness: the amended idempotency at the concrete input
"UserID". -/
theorem claim_C10_witness :
    (∀ r ∈ gs "UserID", r < 128) ∧
    ToSnakeCase (ToSnakeCase (gs "UserID")) = ToSnakeCase (gs "UserID") :=
  ⟨by decide, claim_C10_snake_idempotent_ascii (gs "UserID") (by decide)⟩

/-- C3, counterexample: AppendToEnd does not succeed on an absent
target file: appendToFile returns the read error instead of treating
the missing file as empty content. -/
theorem claim_C3_counterexample :
    appendToFile (fun _ => none) (gs "internal/interfaces/handler/widget_handler.go")
      (gs "\nfunc f()") demoApiInfo [] .AppendToEnd =
      .error (.readFail (gs "internal/interfaces/handler/widget_handler.go")) := rfl

/-- C3, amended: in AppendToEnd mode the injector reads the current
content, concatenates a newline and the fragment and writes the file
back, requiring no anchor (the anchor argument is irrelevant); when
the target file does not exist the operation fails with the read
error instead of creating the file. -/
theorem claim_C3_append_to_end :
    (∀ (fs : FS) (filePath codeSnippet anchorTmplStr : GoStr) (info : ApiInfo) (content : GoStr),
        fs filePath = some content →
        appendToFile fs filePath codeSnippet info anchorTmplStr .AppendToEnd =
          .ok (fsWrite fs filePath (content ++ gs "\n" ++ codeSnippet))) ∧
    (∀ (fs : FS) (filePath codeSnippet anchorTmplStr : GoStr) (info : ApiInfo),
        fs filePath = none →
        appendToFile fs filePath codeSnippet info anchorTmplStr .AppendToEnd =
          .error (.readFail filePath)) := by
  constructor
  · intro fs filePath codeSnippet anchorTmplStr info content hread
    unfold appendToFile
    rw [hread]
  · intro fs filePath codeSnippet anchorTmplStr info hread
    unfold appendToFile
    rw [hread]

/-- C3, witness: the amended behaviour at concrete inputs, one present
file and one absent file. -/
theorem claim_C3_witness :
    appendToFile c3DemoFs (gs "a/b.go") (gs "x") demoApiInfo [] .AppendToEnd =
      .ok (fsWrite c3DemoFs (gs "a/b.go") (gs "package b" ++ gs "\n" ++ gs "x")) ∧
    appendToFile c3DemoFs (gs "c.go") (gs "x") demoApiInfo [] .AppendToEnd =
      .error (.readFail (gs "c.go")) :=
  ⟨claim_C3_append_to_end.1 c3DemoFs (gs "a/b.go") (gs "x") [] demoApiInfo (gs "package b") (by decide),
   claim_C3_append_to_end.2 c3DemoFs (gs "c.go") (gs "x") [] demoApiInfo (by decide)⟩

theorem foldl_routeStep_pre : ∀ (pre : List RouterStmt) (st : GoStr × RouteMap),
    (∀ s ∈ pre, isGroupAssign s = false) → (pre.foldl routeStep st).1 = st.1 := by
  intro pre
  induction pre with
  | nil => intro st h; rfl
  | cons a rest ih =>
    intro st h
    rw [List.foldl_cons, ih _ (fun s hs => h s (List.mem_cons_of_mem _ hs))]
    have ha := h a (List.mem_cons_self _ _)
    cases a with
    | groupAssign lit => simp [isGroupAssign] at ha
    | routeCall m p hd f =>
      simp only [routeStep]
      split <;> rfl
    | otherStmt => rfl

theorem foldl_routeStep_map : ∀ (post : List RouterStmt) (st : GoStr × RouteMap) (key : GoStr),
    (∀ s ∈ post, writesRouteKey key s = false) →
    (post.foldl routeStep st).2 key = st.2 key := by
  intro post
  induction post with
  | nil => intro st key h; rfl
  | cons a rest ih =>
    intro st key h
    rw [List.foldl_cons, ih _ _ (fun s hs => h s (List.mem_cons_of_mem _ hs))]
    have ha := h a (List.mem_cons_self _ _)
    cases a with
    | groupAssign lit => rfl
    | otherStmt => rfl
    | routeCall m p hd f =>
      simp only [writesRouteKey] at ha
      simp only [routeStep]
      by_cases hh : isHTTPMethod (goToUpperStr m) = true
      · rw [if_pos hh]
        have hne : ¬(key = hd ++ gs "." ++ f) := by
          rw [hh] at ha
          simp only [Bool.true_and, beq_eq_false_iff_ne] at ha
          exact fun hk => ha hk.symm
        simp only
        rw [if_neg hne]
      · rw [if_neg hh]

/-- C4: route extraction.  First: on the file shape
g := root.Group("/widgets"); g.Post("/", h.WidgetHandler.Create)
the parser maps WidgetHandler.Create to POST /api/v1/widgets/.
Second: the group prefix is the literal concatenated under /api/v1 and
a doubled slash in the concatenation is collapsed (group literal
"/widgets/" plus route literal "/" still yields /api/v1/widgets/).
Third: a route call appearing before any Group call is recorded under
the empty group prefix. -/
theorem claim_C4_route_extraction :
    (parseRoutes [.groupAssign (gs "/widgets"),
                  .routeCall (gs "Post") (gs "/") (gs "WidgetHandler") (gs "Create")])
        (gs "WidgetHandler.Create") =
      some ⟨gs "POST", gs "/api/v1/widgets/", gs "WidgetHandler", gs "Create"⟩ ∧
    (parseRoutes [.groupAssign (gs "/widgets/"),
                  .routeCall (gs "Post") (gs "/") (gs "WidgetHandler") (gs "Create")])
        (gs "WidgetHandler.Create") =
      some ⟨gs "POST", gs "/api/v1/widgets/", gs "WidgetHandler", gs "Create"⟩ ∧
    (∀ (pre post : List RouterStmt) (methName lit handler fn : GoStr),
      (∀ s ∈ pre, isGroupAssign s = false) →
      (∀ s ∈ post, writesRouteKey (handler ++ gs "." ++ fn) s = false) →
      isHTTPMethod (goToUpperStr methName) = true →
      parseRoutes (pre ++ .routeCall methName lit handler fn :: post)
          (handler ++ gs "." ++ fn) =
        some ⟨goToUpperStr methName, replaceAllL (gs "//") (gs "/") lit, handler, fn⟩) := by
  refine ⟨by decide, by decide, ?_⟩
  intro pre post methName lit handler fn hpre hpost hhttp
  unfold parseRoutes
  rw [List.foldl_append, List.foldl_cons]
  rw [foldl_routeStep_map post _ _ hpost]
  simp only [routeStep, hhttp, if_pos]
  rw [foldl_routeStep_pre pre _ hpre]
  simp

/-- C4, witness: the empty-prefix part of the route-extraction theorem
at a concrete router file where the route call precedes every Group
call. -/
theorem claim_C4_witness :
    parseRoutes [.otherStmt,
                 .routeCall (gs "Get") (gs "/ping") (gs "HealthHandler") (gs "Ping"),
                 .groupAssign (gs "/x")] (gs "HealthHandler.Ping") =
      some ⟨gs "GET", gs "/ping", gs "HealthHandler", gs "Ping"⟩ := by
  have h := claim_C4_route_extraction.2.2 [.otherStmt] [.groupAssign (gs "/x")]
    (gs "Get") (gs "/ping") (gs "HealthHandler") (gs "Ping")
    (by decide) (by decide) (by decide)
  have e1 : gs "HealthHandler" ++ gs "." ++ gs "Ping" = gs "HealthHandler.Ping" := by decide
  have e2 : goToUpperStr (gs "Get") = gs "GET" := by decide
  have e3 : replaceAllL (gs "//") (gs "/") (gs "/ping") = gs "/ping" := by decide
  rw [e1, e2, e3] at h
  exact h

theorem strIndexL_first (x : Nat) (l r : GoStr) (h : x ∉ l) :
    strIndexL [x] (l ++ x :: r) = some l.length := by
  induction l with
  | nil =>
    simp [strIndexL, List.isPrefixOf]
  | cons c cs ih =>
    have hcx : ¬(x == c) = true := by
      simp only [beq_iff_eq]
      intro e
      exact h (e ▸ List.mem_cons_self _ _)
    have hx : x ∉ cs := fun hm => h (List.mem_cons_of_mem _ hm)
    simp only [List.cons_append, strIndexL, List.isPrefixOf]
    rw [if_neg (by simpa using hcx)]
    simp only [List.append_eq]
    rw [ih hx]
    rfl

/-- C5: InsertAfterBrace.  First: when the target content decomposes as
pre ++ anchor ++ mid ++ brace ++ post, the rendered anchor first
occurs at the start of that anchor slice, and no opening brace (rune
123) occurs in the anchor or in mid, the fragment is spliced
immediately after that brace, before every pre-existing member.
Second: a content without the rendered anchor fails with
anchor-not-found.  Third: content where no brace follows the anchor
occurrence fails with brace-not-found. -/
theorem claim_C5_insert_after_brace :
    (∀ (fs : FS) (filePath codeSnippet anchorTmplStr : GoStr) (info : ApiInfo)
        (pre mid post : GoStr),
      anchorTmplStr ≠ [] →
      fs filePath = some (pre ++ renderAnchor anchorTmplStr info ++ mid ++ 123 :: post) →
      strIndexL (renderAnchor anchorTmplStr info)
          (pre ++ renderAnchor anchorTmplStr info ++ mid ++ 123 :: post) = some pre.length →
      123 ∉ renderAnchor anchorTmplStr info →
      123 ∉ mid →
      appendToFile fs filePath codeSnippet info anchorTmplStr .InsertAfterBrace =
        .ok (fsWrite fs filePath
          (pre ++ renderAnchor anchorTmplStr info ++ mid ++ 123 :: (codeSnippet ++ post)))) ∧
    (∀ (fs : FS) (filePath codeSnippet anchorTmplStr : GoStr) (info : ApiInfo) (content : GoStr),
      anchorTmplStr ≠ [] →
      fs filePath = some content →
      strIndexL (renderAnchor anchorTmplStr info) content = none →
      appendToFile fs filePath codeSnippet info anchorTmplStr .InsertAfterBrace =
        .error (.anchorNotFound filePath (renderAnchor anchorTmplStr info))) ∧
    (∀ (fs : FS) (filePath codeSnippet anchorTmplStr : GoStr) (info : ApiInfo)
        (content : GoStr) (aPos : Nat),
      anchorTmplStr ≠ [] →
      fs filePath = some content →
      strIndexL (renderAnchor anchorTmplStr info) content = some aPos →
      strIndexL [123] (content.drop aPos) = none →
      appendToFile fs filePath codeSnippet info anchorTmplStr .InsertAfterBrace =
        .error (.braceNotFound (renderAnchor anchorTmplStr info))) := by
  refine ⟨?_, ?_, ?_⟩
  · intro fs filePath codeSnippet anchorTmplStr info pre mid post hne hread hidx hna hnm
    have hdrop : (pre ++ renderAnchor anchorTmplStr info ++ mid ++ 123 :: post).drop pre.length
        = renderAnchor anchorTmplStr info ++ mid ++ 123 :: post := by
      simp only [List.append_assoc]
      exact List.drop_left pre (renderAnchor anchorTmplStr info ++ (mid ++ 123 :: post))
    have hbrace : strIndexL [123] (renderAnchor anchorTmplStr info ++ mid ++ 123 :: post)
        = some ((renderAnchor anchorTmplStr info).length + mid.length) := by
      have h0 := strIndexL_first 123 (renderAnchor anchorTmplStr info ++ mid) post
        (by
          intro hm
          rcases List.mem_append.mp hm with h1 | h2
          · exact hna h1
          · exact hnm h2)
      rw [List.append_assoc] at h0
      simpa [List.length_append] using h0
    have hcontent : pre ++ renderAnchor anchorTmplStr info ++ mid ++ 123 :: post
        = (pre ++ renderAnchor anchorTmplStr info ++ mid ++ [123]) ++ post := by
      simp
    have hlen : (pre ++ renderAnchor anchorTmplStr info ++ mid ++ [123]).length
        = pre.length + ((renderAnchor anchorTmplStr info).length + mid.length) + 1 := by
      simp only [List.length_append, List.length_cons, List.length_nil]
      omega
    have htake : (pre ++ renderAnchor anchorTmplStr info ++ mid ++ 123 :: post).take
        (pre.length + ((renderAnchor anchorTmplStr info).length + mid.length) + 1)
        = pre ++ renderAnchor anchorTmplStr info ++ mid ++ [123] := by
      rw [hcontent]
      exact List.take_left' hlen
    have hdrop2 : (pre ++ renderAnchor anchorTmplStr info ++ mid ++ 123 :: post).drop
        (pre.length + ((renderAnchor anchorTmplStr info).length + mid.length) + 1)
        = post := by
      rw [hcontent]
      exact List.drop_left' hlen
    simp only [appendToFile, hread]
    rw [if_neg hne]
    simp only [hidx, hdrop, hbrace, htake, hdrop2]
    congr 1
    funext q
    by_cases hq : q = filePath
    · simp [fsWrite, hq]
    · simp [fsWrite, hq]
  · intro fs filePath codeSnippet anchorTmplStr info content hne hread hidx
    simp only [appendToFile, hread]
    rw [if_neg hne]
    simp only [hidx]
  · intro fs filePath codeSnippet anchorTmplStr info content aPos hne hread hidx hbr
    simp only [appendToFile, hread]
    rw [if_neg hne]
    simp only [hidx, hbr]

/-- C5, witness: the three parts at concrete inputs: a successful
splice into a Widget repository interface, a missing anchor, and a
missing brace. -/
theorem claim_C5_witness :
    appendToFile c5DemoFs (gs "internal/domain/repository/widget_repository.go")
      (gs "\n\tPromote(id uint) error") demoApiInfo
      (gs "type \x7b\x7b.EntityName\x7d\x7dRepository interface") .InsertAfterBrace =
      .ok (fsWrite c5DemoFs (gs "internal/domain/repository/widget_repository.go")
        (gs "package repository\n\n" ++
         renderAnchor (gs "type \x7b\x7b.EntityName\x7d\x7dRepository interface") demoApiInfo ++
         gs " " ++ 123 :: (gs "\n\tPromote(id uint) error" ++ gs "\n\x7d\n"))) ∧
    appendToFile c3DemoFs (gs "a/b.go") (gs "x") demoApiInfo
      (gs "type \x7b\x7b.EntityName\x7d\x7dRepository interface") .InsertAfterBrace =
      .error (.anchorNotFound (gs "a/b.go")
        (renderAnchor (gs "type \x7b\x7b.EntityName\x7d\x7dRepository interface") demoApiInfo)) ∧
    appendToFile c5NoBraceFs (gs "r.go") (gs "x") demoApiInfo
      (gs "type \x7b\x7b.EntityName\x7d\x7dRepository interface") .InsertAfterBrace =
      .error (.braceNotFound
        (renderAnchor (gs "type \x7b\x7b.EntityName\x7d\x7dRepository interface") demoApiInfo)) :=
  ⟨claim_C5_insert_after_brace.1 c5DemoFs (gs "internal/domain/repository/widget_repository.go")
      (gs "\n\tPromote(id uint) error") (gs "type \x7b\x7b.EntityName\x7d\x7dRepository interface")
      demoApiInfo (gs "package repository\n\n") (gs " ") (gs "\n\x7d\n")
      (by decide) (by decide) (by decide) (by decide) (by decide),
   claim_C5_insert_after_brace.2.1 c3DemoFs (gs "a/b.go") (gs "x")
      (gs "type \x7b\x7b.EntityName\x7d\x7dRepository interface") demoApiInfo (gs "package b")
      (by decide) (by decide) (by decide),
   claim_C5_insert_after_brace.2.2 c5NoBraceFs (gs "r.go") (gs "x")
      (gs "type \x7b\x7b.EntityName\x7d\x7dRepository interface") demoApiInfo
      (gs "type WidgetRepository interface") 0
      (by decide) (by decide) (by decide) (by decide)⟩

theorem replaceFirstMethod_found (newM : FuncDecl) (T : GoStr) (pre post : List GoDecl)
    (fd : FuncDecl) (hpre : ∀ d ∈ pre, declMatches d newM.name T = false)
    (hfd : matchesMethod fd newM.name T = true) :
    replaceFirstMethod newM T (pre ++ .funcDecl fd :: post) =
      some (pre ++ .funcDecl { fd with doc := mergeDoc fd newM, body := newM.body } :: post) := by
  induction pre with
  | nil =>
    simp only [List.nil_append, replaceFirstMethod, declMatches]
    rw [if_pos hfd]
  | cons d rest ih =>
    have hd := hpre d (List.mem_cons_self _ _)
    simp only [List.cons_append, replaceFirstMethod]
    rw [if_neg (by simp [hd])]
    simp only [List.append_eq]
    rw [ih (fun x hx => hpre x (List.mem_cons_of_mem _ hx))]
    rfl

theorem replaceFirstMethod_none (newM : FuncDecl) (T : GoStr) (decls : List GoDecl)
    (h : ∀ d ∈ decls, declMatches d newM.name T = false) :
    replaceFirstMethod newM T decls = none := by
  induction decls with
  | nil => rfl
  | cons d rest ih =>
    have hd := h d (List.mem_cons_self _ _)
    simp only [replaceFirstMethod]
    rw [if_neg (by simp [hd])]
    rw [ih (fun x hx => h x (List.mem_cons_of_mem _ hx))]
    rfl

/-- C1: merge-or-append.  First: when the fragment is a single method
named M on receiver T and the target file holds a first matching
declaration (same name, receiver base type equal to T under case
folding, pointer or value alike), the merge rewrites exactly that
declaration, keeping its name, receiver and signature and taking the
fragment's body, and every other declaration and the package clause
are untouched.  Second: when no declaration matches, every original
declaration is preserved and the fragment is appended exactly once at
the end. -/
theorem claim_C1_merge_or_append :
    (∀ (fs : AstFS) (filePath raw : GoStr) (frag : FuncDecl) (T pkg : GoStr)
        (pre post : List GoDecl) (fd : FuncDecl),
      goTrimSpace raw ≠ [] →
      getReceiverTypeName frag.recv = T →
      fs filePath = some { pkgName := pkg, decls := pre ++ .funcDecl fd :: post } →
      (∀ d ∈ pre, declMatches d frag.name T = false) →
      matchesMethod fd frag.name T = true →
      smartReplaceOrAddMethods fs filePath raw (some [.funcDecl frag]) T =
        .ok (astWrite fs filePath
          { pkgName := pkg,
            decls := pre ++ .funcDecl { doc := mergeDoc fd frag, name := fd.name,
                                        recv := fd.recv, sig := fd.sig,
                                        body := frag.body } :: post })) ∧
    (∀ (fs : AstFS) (filePath raw : GoStr) (frag : FuncDecl) (T pkg : GoStr)
        (decls : List GoDecl),
      goTrimSpace raw ≠ [] →
      getReceiverTypeName frag.recv = T →
      fs filePath = some { pkgName := pkg, decls := decls } →
      (∀ d ∈ decls, declMatches d frag.name T = false) →
      smartReplaceOrAddMethods fs filePath raw (some [.funcDecl frag]) T =
        .ok (astWrite fs filePath { pkgName := pkg, decls := decls ++ [.funcDecl frag] })) := by
  constructor
  · intro fs filePath raw frag T pkg pre post fd htrim hrecv hread hpre hfd
    simp only [smartReplaceOrAddMethods]
    rw [if_neg htrim]
    simp only [hread]
    rw [replaceFirstMethod_found frag T pre post fd hpre hfd]
  · intro fs filePath raw frag T pkg decls htrim hrecv hread hnone
    simp only [smartReplaceOrAddMethods]
    rw [if_neg htrim]
    simp only [hread]
    rw [replaceFirstMethod_none frag T decls hnone]

/-- C1, witness: the replace branch on a service file holding the
matching Promote method, and the append branch for a fragment whose
receiver does not match any declaration of that file. -/
theorem claim_C1_witness :
    smartReplaceOrAddMethods c9AstFs (gs "internal/application/service/widget_service.go")
      c9Raw (some [.funcDecl c9FragA]) (gs "widgetServiceImpl") =
      .ok (astWrite c9AstFs (gs "internal/application/service/widget_service.go")
        { pkgName := gs "service",
          decls := [.funcDecl { doc := none, name := gs "Promote",
                                recv := some (.star (gs "widgetServiceImpl")),
                                sig := 0, body := 1 }] }) ∧
    smartReplaceOrAddMethods c9AstFs (gs "internal/application/service/widget_service.go")
      c9Raw (some [.funcDecl c1FragRepo]) (gs "widgetRepositoryImpl") =
      .ok (astWrite c9AstFs (gs "internal/application/service/widget_service.go")
        { pkgName := gs "service",
          decls := [.funcDecl c9OldMethod, .funcDecl c1FragRepo] }) :=
  ⟨claim_C1_merge_or_append.1 c9AstFs (gs "internal/application/service/widget_service.go")
      c9Raw c9FragA (gs "widgetServiceImpl") (gs "service") [] [] c9OldMethod
      (by decide) (by decide) (by decide) (by decide) (by decide),
   claim_C1_merge_or_append.2 c9AstFs (gs "internal/application/service/widget_service.go")
      c9Raw c1FragRepo (gs "widgetRepositoryImpl") (gs "service") [.funcDecl c9OldMethod]
      (by decide) (by decide) (by decide) (by decide)⟩

/-- C8: documentation preservation on the replace branch.  First: when
the existing method's comment block has a line containing the at-sign
and the fragment's block has none, the merged declaration keeps the
original comment block verbatim.  Second: in every other case the
fragment's comment block is adopted. -/
theorem claim_C8_doc_preservation :
    (∀ (fs : AstFS) (filePath raw : GoStr) (frag : FuncDecl) (T pkg : GoStr)
        (pre post : List GoDecl) (fd : FuncDecl),
      goTrimSpace raw ≠ [] →
      fs filePath = some { pkgName := pkg, decls := pre ++ .funcDecl fd :: post } →
      (∀ d ∈ pre, declMatches d frag.name T = false) →
      matchesMethod fd frag.name T = true →
      hasSwaggerAnnotations fd.doc = true →
      hasSwaggerAnnotations frag.doc = false →
      smartReplaceOrAddMethods fs filePath raw (some [.funcDecl frag]) T =
        .ok (astWrite fs filePath
          { pkgName := pkg,
            decls := pre ++ .funcDecl { doc := fd.doc, name := fd.name, recv := fd.recv,
                                        sig := fd.sig, body := frag.body } :: post })) ∧
    (∀ (fs : AstFS) (filePath raw : GoStr) (frag : FuncDecl) (T pkg : GoStr)
        (pre post : List GoDecl) (fd : FuncDecl),
      goTrimSpace raw ≠ [] →
      fs filePath = some { pkgName := pkg, decls := pre ++ .funcDecl fd :: post } →
      (∀ d ∈ pre, declMatches d frag.name T = false) →
      matchesMethod fd frag.name T = true →
      (hasSwaggerAnnotations fd.doc && !hasSwaggerAnnotations frag.doc) = false →
      smartReplaceOrAddMethods fs filePath raw (some [.funcDecl frag]) T =
        .ok (astWrite fs filePath
          { pkgName := pkg,
            decls := pre ++ .funcDecl { doc := frag.doc, name := fd.name, recv := fd.recv,
                                        sig := fd.sig, body := frag.body } :: post })) := by
  constructor
  · intro fs filePath raw frag T pkg pre post fd htrim hread hpre hfd hold hnew
    have hdoc : mergeDoc fd frag = fd.doc := by
      unfold mergeDoc
      rw [if_pos (by rw [hold, hnew]; rfl)]
    simp only [smartReplaceOrAddMethods]
    rw [if_neg htrim]
    simp only [hread]
    rw [replaceFirstMethod_found frag T pre post fd hpre hfd]
    rw [hdoc]
  · intro fs filePath raw frag T pkg pre post fd htrim hread hpre hfd hcond
    have hdoc : mergeDoc fd frag = frag.doc := by
      unfold mergeDoc
      rw [if_neg (by simp [hcond])]
    simp only [smartReplaceOrAddMethods]
    rw [if_neg htrim]
    simp only [hread]
    rw [replaceFirstMethod_found frag T pre post fd hpre hfd]
    rw [hdoc]

/-- C8, witness: both branches at concrete inputs: an annotated
existing method merged with an unannotated fragment keeps its comment
block, and merged with an annotated fragment adopts the fragment's. -/
theorem claim_C8_witness :
    smartReplaceOrAddMethods c8AstFs (gs "internal/application/service/widget_service.go")
      c9Raw (some [.funcDecl c9FragA]) (gs "widgetServiceImpl") =
      .ok (astWrite c8AstFs (gs "internal/application/service/widget_service.go")
        { pkgName := gs "service",
          decls := [.funcDecl { doc := c8OldMethod.doc, name := gs "Promote",
                                recv := some (.star (gs "widgetServiceImpl")),
                                sig := 0, body := 1 }] }) ∧
    smartReplaceOrAddMethods c8AstFs (gs "internal/application/service/widget_service.go")
      c9Raw (some [.funcDecl c8FragSwag]) (gs "widgetServiceImpl") =
      .ok (astWrite c8AstFs (gs "internal/application/service/widget_service.go")
        { pkgName := gs "service",
          decls := [.funcDecl { doc := c8FragSwag.doc, name := gs "Promote",
                                recv := some (.star (gs "widgetServiceImpl")),
                                sig := 0, body := 4 }] }) :=
  ⟨claim_C8_doc_preservation.1 c8AstFs (gs "internal/application/service/widget_service.go")
      c9Raw c9FragA (gs "widgetServiceImpl") (gs "service") [] [] c8OldMethod
      (by decide) (by decide) (by decide) (by decide) (by decide) (by decide),
   claim_C8_doc_preservation.2 c8AstFs (gs "internal/application/service/widget_service.go")
      c9Raw c8FragSwag (gs "widgetServiceImpl") (gs "service") [] [] c8OldMethod
      (by decide) (by decide) (by decide) (by decide) (by decide)⟩

/-- C9, counterexample: a fragment parsing to two top-level function
declarations does not make the merge fail: the operation succeeds,
using only the first declaration. -/
theorem claim_C9_counterexample :
    exceptIsOk (smartReplaceOrAddMethods c9AstFs
      (gs "internal/application/service/widget_service.go") c9Raw
      (some [.funcDecl c9FragA, .funcDecl c9FragB]) (gs "widgetServiceImpl")) = true := by
  decide

/-- C9, amended: a fragment that fails to parse or parses to zero
declarations aborts the merge with the fragment text in the error; a
fragment whose first declaration is not a function aborts (without the
fragment text); in each failure case the target files are unchanged.
A fragment with at least one declaration whose first is a function is
accepted, and any further declarations are ignored: the merge behaves
exactly as if the fragment held only its first declaration. -/
theorem claim_C9_fragment_requirements :
    (∀ (fs : AstFS) (filePath raw T : GoStr),
      goTrimSpace raw ≠ [] →
      smartReplaceOrAddMethods fs filePath raw none T = .error (.fragmentUnparsable raw) ∧
      runSmartReplace fs filePath raw none T = fs) ∧
    (∀ (fs : AstFS) (filePath raw T : GoStr),
      goTrimSpace raw ≠ [] →
      smartReplaceOrAddMethods fs filePath raw (some []) T = .error (.fragmentUnparsable raw) ∧
      runSmartReplace fs filePath raw (some []) T = fs) ∧
    (∀ (fs : AstFS) (filePath raw T : GoStr) (k : Nat) (rest : List GoDecl),
      goTrimSpace raw ≠ [] →
      smartReplaceOrAddMethods fs filePath raw (some (.otherDecl k :: rest)) T =
        .error .noFuncDecl ∧
      runSmartReplace fs filePath raw (some (.otherDecl k :: rest)) T = fs) ∧
    (∀ (fs : AstFS) (filePath raw T : GoStr) (f : FuncDecl) (rest : List GoDecl),
      smartReplaceOrAddMethods fs filePath raw (some (.funcDecl f :: rest)) T =
        smartReplaceOrAddMethods fs filePath raw (some [.funcDecl f]) T) := by
  refine ⟨?_, ?_, ?_, ?_⟩
  · intro fs filePath raw T htrim
    constructor
    · simp only [smartReplaceOrAddMethods]
      rw [if_neg htrim]
    · unfold runSmartReplace
      simp only [smartReplaceOrAddMethods]
      rw [if_neg htrim]
  · intro fs filePath raw T htrim
    constructor
    · simp only [smartReplaceOrAddMethods]
      rw [if_neg htrim]
    · unfold runSmartReplace
      simp only [smartReplaceOrAddMethods]
      rw [if_neg htrim]
  · intro fs filePath raw T k rest htrim
    constructor
    · simp only [smartReplaceOrAddMethods]
      rw [if_neg htrim]
    · unfold runSmartReplace
      simp only [smartReplaceOrAddMethods]
      rw [if_neg htrim]
  · intro fs filePath raw T f rest
    rfl

/-- C9, witness: the failure cases and the ignored-tail case at
concrete inputs. -/
theorem claim_C9_witness :
    (smartReplaceOrAddMethods c9AstFs (gs "internal/application/service/widget_service.go")
        c9Raw none (gs "widgetServiceImpl") = .error (.fragmentUnparsable c9Raw) ∧
      runSmartReplace c9AstFs (gs "internal/application/service/widget_service.go")
        c9Raw none (gs "widgetServiceImpl") = c9AstFs) ∧
    (smartReplaceOrAddMethods c9AstFs (gs "internal/application/service/widget_service.go")
        c9Raw (some []) (gs "widgetServiceImpl") = .error (.fragmentUnparsable c9Raw) ∧
      runSmartReplace c9AstFs (gs "internal/application/service/widget_service.go")
        c9Raw (some []) (gs "widgetServiceImpl") = c9AstFs) ∧
    (smartReplaceOrAddMethods c9AstFs (gs "internal/application/service/widget_service.go")
        c9Raw (some [.otherDecl 7, .funcDecl c9FragA]) (gs "widgetServiceImpl") =
        .error .noFuncDecl ∧
      runSmartReplace c9AstFs (gs "internal/application/service/widget_service.go")
        c9Raw (some [.otherDecl 7, .funcDecl c9FragA]) (gs "widgetServiceImpl") = c9AstFs) ∧
    smartReplaceOrAddMethods c9AstFs (gs "internal/application/service/widget_service.go")
        c9Raw (some [.funcDecl c9FragA, .funcDecl c9FragB]) (gs "widgetServiceImpl") =
      smartReplaceOrAddMethods c9AstFs (gs "internal/application/service/widget_service.go")
        c9Raw (some [.funcDecl c9FragA]) (gs "widgetServiceImpl") :=
  ⟨claim_C9_fragment_requirements.1 c9AstFs _ c9Raw (gs "widgetServiceImpl") (by decide),
   claim_C9_fragment_requirements.2.1 c9AstFs _ c9Raw (gs "widgetServiceImpl") (by decide),
   claim_C9_fragment_requirements.2.2.1 c9AstFs _ c9Raw (gs "widgetServiceImpl") 7
     [.funcDecl c9FragA] (by decide),
   claim_C9_fragment_requirements.2.2.2 c9AstFs _ c9Raw (gs "widgetServiceImpl")
     c9FragA [.funcDecl c9FragB]⟩

theorem processField_entityName (info : EntityInfo) (f : GoField) :
    (processField info f).EntityName = info.EntityName := by
  unfold processField
  cases f.names with
  | nil => rfl
  | cons n ns =>
    simp only
    split <;> rfl

theorem foldl_processField_entityName : ∀ (fs : List GoField) (info : EntityInfo),
    (fs.foldl processField info).EntityName = info.EntityName := by
  intro fs
  induction fs with
  | nil => intro info; rfl
  | cons f rest ih =>
    intro info
    rw [List.foldl_cons, ih, processField_entityName]

theorem processStruct_entityName (info : EntityInfo) (st : GoStruct) :
    (processStruct info st).EntityName = st.name := by
  unfold processStruct
  rw [foldl_processField_entityName]

theorem foldl_processStruct_entityName_ne : ∀ (sts : List GoStruct) (info : EntityInfo),
    (∀ st ∈ sts, st.name ≠ []) → (info.EntityName ≠ [] ∨ sts ≠ []) →
    (sts.foldl processStruct info).EntityName ≠ [] := by
  intro sts
  induction sts with
  | nil =>
    intro info _ hd
    rcases hd with h | h
    · exact h
    · exact absurd rfl h
  | cons st rest ih =>
    intro info hnames _
    rw [List.foldl_cons]
    rcases List.eq_nil_or_concat rest with rfl | _
    · rw [List.foldl_nil, processStruct_entityName]
      exact hnames st (List.mem_cons_self _ _)
    · refine ih (processStruct info st) (fun x hx => hnames x (List.mem_cons_of_mem _ hx)) ?_
      left
      rw [processStruct_entityName]
      exact hnames st (List.mem_cons_self _ _)

theorem processField_pk (info : EntityInfo) (f : GoField) (h : (parseGormTag f.tag).2 = false) :
    (processField info f).PrimaryKey = info.PrimaryKey := by
  unfold processField
  cases f.names with
  | nil => rfl
  | cons n ns =>
    simp only
    rw [if_neg (by simp [h])]

theorem foldl_processField_pk : ∀ (fs : List GoField) (info : EntityInfo),
    (∀ f ∈ fs, (parseGormTag f.tag).2 = false) →
    (fs.foldl processField info).PrimaryKey = info.PrimaryKey := by
  intro fs
  induction fs with
  | nil => intro info _; rfl
  | cons f rest ih =>
    intro info h
    rw [List.foldl_cons, ih _ (fun x hx => h x (List.mem_cons_of_mem _ hx)),
        processField_pk _ _ (h f (List.mem_cons_self _ _))]

theorem foldl_processStruct_pk : ∀ (sts : List GoStruct) (info : EntityInfo),
    (∀ st ∈ sts, ∀ f ∈ st.fields, (parseGormTag f.tag).2 = false) →
    (sts.foldl processStruct info).PrimaryKey = info.PrimaryKey := by
  intro sts
  induction sts with
  | nil => intro info _; rfl
  | cons st rest ih =>
    intro info h
    rw [List.foldl_cons, ih _ (fun x hx => h x (List.mem_cons_of_mem _ hx))]
    unfold processStruct
    rw [foldl_processField_pk _ _ (h st (List.mem_cons_self _ _))]

theorem processField_fields_mono (info : EntityInfo) (f : GoField) (x : FieldInfo)
    (h : x ∈ info.Fields) : x ∈ (processField info f).Fields := by
  unfold processField
  cases f.names with
  | nil => exact h
  | cons n ns =>
    simp only
    split
    · exact List.mem_append_left _ h
    · exact List.mem_append_left _ h

theorem foldl_processField_mono : ∀ (fs : List GoField) (info : EntityInfo) (x : FieldInfo),
    x ∈ info.Fields → x ∈ (fs.foldl processField info).Fields := by
  intro fs
  induction fs with
  | nil => intro info x h; exact h
  | cons f rest ih =>
    intro info x h
    exact ih _ _ (processField_fields_mono _ _ _ h)

theorem foldl_processField_adds : ∀ (fs : List GoField) (info : EntityInfo) (f : GoField)
    (n : GoStr) (ns : List GoStr), f ∈ fs → f.names = n :: ns →
    mkFieldInfo n f.typeExpr f.tag ∈ (fs.foldl processField info).Fields := by
  intro fs
  induction fs with
  | nil => intro info f n ns h; exact absurd h (List.not_mem_nil _)
  | cons g rest ih =>
    intro info f n ns hmem hnames
    rcases List.mem_cons.mp hmem with rfl | hmem'
    · rw [List.foldl_cons]
      apply foldl_processField_mono
      unfold processField
      rw [hnames]
      simp only
      split
      · exact List.mem_append_right _ (List.mem_singleton.mpr rfl)
      · exact List.mem_append_right _ (List.mem_singleton.mpr rfl)
    · exact ih _ f n ns hmem' hnames

theorem processStruct_fields_mono (info : EntityInfo) (st : GoStruct) (x : FieldInfo)
    (h : x ∈ info.Fields) : x ∈ (processStruct info st).Fields :=
  foldl_processField_mono st.fields _ x h

theorem foldl_processStruct_mono : ∀ (sts : List GoStruct) (info : EntityInfo) (x : FieldInfo),
    x ∈ info.Fields → x ∈ (sts.foldl processStruct info).Fields := by
  intro sts
  induction sts with
  | nil => intro info x h; exact h
  | cons st rest ih =>
    intro info x h
    exact ih _ _ (processStruct_fields_mono _ _ _ h)

theorem foldl_processStruct_adds : ∀ (sts : List GoStruct) (info : EntityInfo) (st : GoStruct)
    (f : GoField) (n : GoStr) (ns : List GoStr), st ∈ sts → f ∈ st.fields → f.names = n :: ns →
    mkFieldInfo n f.typeExpr f.tag ∈ (sts.foldl processStruct info).Fields := by
  intro sts
  induction sts with
  | nil => intro info st f n ns h; exact absurd h (List.not_mem_nil _)
  | cons s rest ih =>
    intro info st f n ns hst hf hnames
    rcases List.mem_cons.mp hst with rfl | hst'
    · rw [List.foldl_cons]
      exact foldl_processStruct_mono rest _ _
        (foldl_processField_adds st.fields _ f n ns hf hnames)
    · exact ih _ st f n ns hst' hf hnames

/-- C6: primary-key requirement.  First: for an entity file whose
structs are named and none of whose fields carries a primaryKey gorm
tag, parsing fails with the descriptive primary-key error, and the
generation run returns before any generation step, leaving the file
system untouched whatever the generation steps would do.  Second: a
named field whose tag declares no column name is parsed with a
GormName equal to the snake-cased field identifier. -/
theorem claim_C6_primary_key :
    (∀ (file : EntityFileAst) (module : GoStr),
      file.structs ≠ [] →
      (∀ st ∈ file.structs, st.name ≠ []) →
      (∀ st ∈ file.structs, ∀ f ∈ st.fields, (parseGormTag f.tag).2 = false) →
      parseEntityFile file module = .error noPrimaryKeyMsg ∧
      ∀ (gen : EntityInfo → FS → FS) (fs : FS), runGenerateModel gen fs file module = fs) ∧
    (∀ (file : EntityFileAst) (module : GoStr) (st : GoStruct) (f : GoField) (n : GoStr)
        (ns : List GoStr) (info : EntityInfo),
      st ∈ file.structs → f ∈ st.fields → f.names = n :: ns →
      (parseGormTag f.tag).1 = [] →
      parseEntityFile file module = .ok info →
      ∃ fi ∈ info.Fields, fi.Name = n ∧ fi.GormName = ToSnakeCase n) := by
  constructor
  · intro file module hne hnames hnopk
    have hparse : parseEntityFile file module = .error noPrimaryKeyMsg := by
      simp only [parseEntityFile]
      rw [if_neg (foldl_processStruct_entityName_ne file.structs _ hnames (Or.inr hne))]
      rw [if_pos (by rw [foldl_processStruct_pk file.structs _ hnopk]; rfl)]
    refine ⟨hparse, ?_⟩
    intro gen fs
    unfold runGenerateModel
    rw [hparse]
  · intro file module st f n ns info hst hf hnames hcol hok
    simp only [parseEntityFile] at hok
    split_ifs at hok with h1 h2 h3
    · injection hok with hinfo
      subst hinfo
      exact ⟨mkFieldInfo n f.typeExpr f.tag,
             foldl_processStruct_adds file.structs _ st f n ns hst hf hnames,
             rfl, by simp [mkFieldInfo, hcol]⟩
    · injection hok with hinfo
      subst hinfo
      exact ⟨mkFieldInfo n f.typeExpr f.tag,
             foldl_processStruct_adds file.structs _ st f n ns hst hf hnames,
             rfl, by simp [mkFieldInfo, hcol]⟩

/-- C6, witness: the failing parse on a struct without a primary key
(with an arbitrary concrete generation step left unapplied), and the
snake-cased column of the UserName field in a successful parse. -/
theorem claim_C6_witness :
    (parseEntityFile c6NoPkFile (gs "example.com/app") = .error noPrimaryKeyMsg ∧
      runGenerateModel (fun _ f => fsWrite f (gs "out.go") (gs "x")) c3DemoFs c6NoPkFile
        (gs "example.com/app") = c3DemoFs) ∧
    ∃ fi ∈ c6Info.Fields, fi.Name = gs "UserName" ∧ fi.GormName = ToSnakeCase (gs "UserName") := by
  have ha := (claim_C6_primary_key.1 c6NoPkFile (gs "example.com/app")
    (by decide) (by decide) (by decide))
  have hb := claim_C6_primary_key.2 c6DemoFile (gs "example.com/app")
    { name := gs "Widget",
      fields :=
        [{ names := [gs "ID"], typeExpr := gs "uint",
           tag := some (gs "json:\"id\" gorm:\"primaryKey\"") },
         { names := [gs "UserName"], typeExpr := gs "string", tag := none }] }
    { names := [gs "UserName"], typeExpr := gs "string", tag := none }
    (gs "UserName") [] c6Info (by decide) (by decide) (by decide) (by decide) (by rfl)
  exact ⟨⟨ha.1, ha.2 _ c3DemoFs⟩, hb⟩

theorem isPrefixOf_append_self : ∀ (p t : GoStr), p.isPrefixOf (p ++ t) = true := by
  intro p t
  induction p with
  | nil => simp [List.isPrefixOf]
  | cons c cs ih => simp [List.isPrefixOf, ih]

theorem strIndexL_isSome_of_isPrefixOf (p s : GoStr) (h : p.isPrefixOf s = true) :
    (strIndexL p s).isSome = true := by
  cases s with
  | nil => simp [strIndexL, h]
  | cons r rest => simp [strIndexL, h]

theorem strIndexL_parts_isSome : ∀ (a : GoStr) (pat c : GoStr),
    (strIndexL pat (a ++ (pat ++ c))).isSome = true := by
  intro a
  induction a with
  | nil =>
    intro pat c
    exact strIndexL_isSome_of_isPrefixOf _ _ (isPrefixOf_append_self pat c)
  | cons x xs ih =>
    intro pat c
    simp only [List.cons_append, strIndexL]
    split
    · rfl
    · have hx := ih pat c
      cases hmi : strIndexL pat (xs ++ (pat ++ c)) with
      | none => rw [hmi] at hx; simp at hx
      | some v => simp [hmi]

theorem goContains_parts (a pat c : GoStr) : goContains (a ++ pat ++ c) pat = true := by
  unfold goContains
  rw [List.append_assoc]
  exact strIndexL_parts_isSome a pat c

theorem replaceFirstL_id : ∀ (s pat rep : GoStr),
    goContains s pat = false → replaceFirstL pat rep s = s := by
  intro s
  induction s with
  | nil =>
    intro pat rep h
    by_cases hp : pat.isPrefixOf ([] : GoStr) = true
    · simp [goContains, strIndexL, hp] at h
    · simp [replaceFirstL, hp]
  | cons r rest ih =>
    intro pat rep h
    by_cases hp : pat.isPrefixOf (r :: rest) = true
    · simp [goContains, strIndexL, hp] at h
    · have hrest : goContains rest pat = false := by
        simp only [goContains, strIndexL] at h
        rw [if_neg hp] at h
        simpa [goContains, Option.isSome_map] using h
      simp [replaceFirstL, hp, ih pat rep hrest]

theorem replaceFirstL_parts : ∀ (s pat rep : GoStr),
    goContains s pat = true → ∃ x y, replaceFirstL pat rep s = x ++ rep ++ y := by
  intro s
  induction s with
  | nil =>
    intro pat rep h
    by_cases hp : pat.isPrefixOf ([] : GoStr) = true
    · exact ⟨[], [], by simp [replaceFirstL, hp]⟩
    · simp [goContains, strIndexL, hp] at h
  | cons r rest ih =>
    intro pat rep h
    by_cases hp : pat.isPrefixOf (r :: rest) = true
    · exact ⟨[], (r :: rest).drop pat.length, by simp [replaceFirstL, hp]⟩
    · have hrest : goContains rest pat = true := by
        simp only [goContains, strIndexL] at h
        rw [if_neg hp] at h
        simpa [goContains, Option.isSome_map] using h
      obtain ⟨x, y, hxy⟩ := ih pat rep hrest
      exact ⟨r :: x, y, by simp [replaceFirstL, hp, hxy]⟩

theorem goContains_routesBlock (x y : GoStr) (info : EntityInfo) :
    goContains (x ++ routesBlock info ++ y) (routesMarker info) = true := by
  have h2 : x ++ routesBlock info ++ y
      = (x ++ gs "\n\t") ++ routesMarker info ++ (routesBlockTail info ++ y) := by
    simp [routesBlock, List.append_assoc]
  rw [h2]
  exact goContains_parts _ _ _

theorem fsWrite_already (fs : FS) (p c : GoStr) (h : fs p = some c) : fsWrite fs p c = fs := by
  funext q
  unfold fsWrite
  by_cases hq : q = p
  · rw [if_pos hq, hq, h]
  · rw [if_neg hq]

theorem fsWrite_idem (fs : FS) (p c : GoStr) : fsWrite (fsWrite fs p c) p c = fsWrite fs p c :=
  fsWrite_already _ _ _ (by simp [fsWrite])

theorem appendToFile_line_ok_shape (fs : FS) (filePath codeSnippet anchorTmplStr : GoStr)
    (info : ApiInfo) (fs' : FS)
    (h : appendToFile fs filePath codeSnippet info anchorTmplStr .InsertAfterLine = .ok fs') :
    ∃ a b, fs' = fsWrite fs filePath (a ++ codeSnippet ++ b) := by
  cases hfs : fs filePath with
  | none =>
    simp only [appendToFile, hfs] at h
    exact Except.noConfusion h
  | some content =>
    simp only [appendToFile, hfs] at h
    by_cases hne : anchorTmplStr = []
    · rw [if_pos hne] at h
      exact Except.noConfusion h
    · rw [if_neg hne] at h
      cases hidx : strIndexL (renderAnchor anchorTmplStr info) content with
      | none =>
        simp only [hidx] at h
        exact Except.noConfusion h
      | some aPos =>
        simp only [hidx] at h
        injection h with h'
        refine ⟨content.take (aPos + (renderAnchor anchorTmplStr info).length) ++ gs "\n",
                content.drop (aPos + (renderAnchor anchorTmplStr info).length), ?_⟩
        rw [← h']

/-- C2, amended: the marker-guarded injection steps are idempotent.
First: addRoutesToRouter — a second run on the files produced by a
successful run is a no-op returning the same files (the entity's route
marker is found, or the anchor was absent both times).  Second:
ensureRouteGroupExists — a second run finds the group-creation line
spliced by the first and changes nothing. -/
theorem claim_C2_guarded_idempotency :
    (∀ (info : EntityInfo) (routerFile : GoStr) (fs fs' : FS),
      addRoutesToRouter info routerFile fs = .ok fs' →
      addRoutesToRouter info routerFile fs' = .ok fs') ∧
    (∀ (routerPath : GoStr) (info : ApiInfo) (fs fs' : FS),
      ensureRouteGroupExists routerPath info fs = .ok fs' →
      ensureRouteGroupExists routerPath info fs' = .ok fs') := by
  constructor
  · intro info routerFile fs fs' h
    cases hfs : fs routerFile with
    | none =>
      simp only [addRoutesToRouter, hfs] at h
      exact Except.noConfusion h
    | some content =>
      simp only [addRoutesToRouter, hfs] at h
      by_cases hmark : goContains content (routesMarker info) = true
      · rw [if_pos hmark] at h
        injection h with h'
        subst h'
        simp only [addRoutesToRouter, hfs]
        rw [if_pos hmark]
      · rw [if_neg hmark] at h
        injection h with h'
        by_cases hanch : goContains content generatorAnchor = true
        · obtain ⟨x, y, hxy⟩ := replaceFirstL_parts content generatorAnchor (routesBlock info) hanch
          have hfs' : fs' routerFile = some (x ++ routesBlock info ++ y) := by
            rw [← h']
            simp [fsWrite, hxy]
          simp only [addRoutesToRouter, hfs']
          rw [if_pos (goContains_routesBlock x y info)]
        · have hnc : goContains content generatorAnchor = false := by simpa using hanch
          have hid := replaceFirstL_id content generatorAnchor (routesBlock info) hnc
          rw [hid] at h'
          have hfs' : fs' routerFile = some content := by
            rw [← h']
            simp [fsWrite]
          simp only [addRoutesToRouter, hfs']
          rw [if_neg hmark, hid, fsWrite_already fs' routerFile content hfs']
  · intro routerPath info fs fs' h
    cases hfs : fs routerPath with
    | none =>
      simp only [ensureRouteGroupExists, hfs] at h
      exact Except.noConfusion h
    | some content =>
      simp only [ensureRouteGroupExists, hfs] at h
      by_cases hg : goContains content (groupDefinition info) = true
      · rw [if_pos hg] at h
        injection h with h'
        subst h'
        simp only [ensureRouteGroupExists, hfs]
        rw [if_pos hg]
      · rw [if_neg hg] at h
        obtain ⟨a, b, hab⟩ :=
          appendToFile_line_ok_shape fs routerPath (routeGroupCreation info) apiV1Anchor info fs' h
        have hsplit : a ++ routeGroupCreation info ++ b
            = (a ++ (gs "\n\t// " ++ info.EntityName ++ gs " routes\n\t")) ++
                groupDefinition info ++ b := by
          simp [routeGroupCreation, List.append_assoc]
        have hfs' : fs' routerPath = some (a ++ routeGroupCreation info ++ b) := by
          rw [hab]
          simp [fsWrite]
        simp only [ensureRouteGroupExists, hfs']
        rw [if_pos (by rw [hsplit]; exact goContains_parts _ _ _)]

/-- C2, witness: both idempotent steps run twice at concrete inputs, a
Widget CRUD route block and a Widget route group. -/
theorem claim_C2_witness :
    (addRoutesToRouter c2EntityInfo (gs "internal/infrastructure/router/router.go") c2ModFs =
        .ok c2RouterOnce ∧
      addRoutesToRouter c2EntityInfo (gs "internal/infrastructure/router/router.go") c2RouterOnce =
        .ok c2RouterOnce) ∧
    (ensureRouteGroupExists (gs "internal/infrastructure/router/router.go") demoApiInfo c2DemoFs =
        .ok c2EnsureOnce ∧
      ensureRouteGroupExists (gs "internal/infrastructure/router/router.go") demoApiInfo c2EnsureOnce =
        .ok c2EnsureOnce) :=
  ⟨⟨by rfl, claim_C2_guarded_idempotency.1 c2EntityInfo
      (gs "internal/infrastructure/router/router.go") c2ModFs c2RouterOnce (by rfl)⟩,
   ⟨by rfl, claim_C2_guarded_idempotency.2
      (gs "internal/infrastructure/router/router.go") demoApiInfo c2DemoFs c2EnsureOnce (by rfl)⟩⟩

/-- C2, counterexample: the gen-api orchestration is not idempotent.
Both runs of injectGeneratedCode on the Widget inputs succeed, yet the
handler file after the second run differs from the handler file after
the first: the task loop performs no duplicate check, so the handler
method is appended again. -/
theorem claim_C2_counterexample :
    exceptIsOk (injectGeneratedCode demoPathsDDD demoApiInfo demoSnippets c2DemoFs) = true ∧
    exceptIsOk (injectGeneratedCode demoPathsDDD demoApiInfo demoSnippets c2Once) = true ∧
    c2Twice (gs "internal/interfaces/handler/widget_handler.go") ≠
      c2Once (gs "internal/interfaces/handler/widget_handler.go") := by
  refine ⟨by decide, by decide, by decide⟩
